import Mathlib

/-!
Verification of the Conduit client core (`conduit.py`): the parameter
encoder (`_build`, `_encode`, `_encode_list`, `_encode_dict`) and the
request dispatcher (`_go`, `_execute`).

Modelling conventions:
- A Python parameter value (string | list | dict) is the inductive `Tree`;
  dict iteration order is the assoc-list order (Python dicts iterate in
  insertion order and cannot hold duplicate keys).
- Python `TypeError` (e.g. `str + dict` inside `_build`) is `Option.none`
  in the encoder and `CallError.typeError` in the dispatcher.
- The dispatcher is staged: `execute_request` performs everything up to
  and including building the POST body (token/host checks, URL, body),
  returning the `Request` that would be handed to the transport together
  with the caller's parameter object after any in-place mutation;
  `handle_response` models the envelope unwrapping that follows the
  transport round trip.  `call` composes the two, so a configuration
  error provably yields a result independent of the transport response.
- Manual-mode bodies are raw strings (the code applies no percent
  encoding); standard mode hands the final dict to the external
  `urlencode`, modelled by keeping the pair list abstract in `Posting`.
-/

namespace Conduit

/-- A Python parameter tree: string leaf, list, or string-keyed dict. -/
inductive ParamTree where
  | str (s : String)
  | seq (elems : List ParamTree)
  | map (entries : List (String × ParamTree))


/-- `_build(name, value)`: `name + "=" + value`. -/
def build (name value : String) : String :=
  name ++ "=" ++ value

/-- `_encode_list(prefix, vals)`: yields `_build(prefix + "[" + str(idx) + "]", elem)`
for each element, with `idx` counting from 0.  `_build` concatenates the
element directly, so a non-string element raises `TypeError` (`none`). -/
def encode_list (pre : String) (vals : List ParamTree) (idx : Nat) : Option (List String) :=
  match vals with
  | [] => some []
  | ParamTree.str s :: rest =>
      match encode_list pre rest (idx + 1) with
      | none => none
      | some tail => some (build (pre ++ "[" ++ toString idx ++ "]") s :: tail)
  | _ :: _ => none

mutual

/-- `_encode(prefix, vals, child)`: strings yield one pair, dicts go to
`_encode_dict`, everything else to `_encode_list`. -/
def encode (pre : String) (vals : ParamTree) (child : Bool) : Option (List String) :=
  match vals with
  | ParamTree.str s => some [build pre s]
  | ParamTree.map entries => encode_dict pre entries child
  | ParamTree.seq elems => encode_list pre elems 0

/-- `_encode_dict(prefix, vals, nested)`: for each key, the field name is
the bare key unless `nested`, in which case `prefix + "[" + key + "]"`;
the value is encoded recursively with `child = True`. -/
def encode_dict (pre : String) (entries : List (String × ParamTree)) (nested : Bool) :
    Option (List String) :=
  match entries with
  | [] => some []
  | (k, v) :: rest =>
      let key := if nested then pre ++ "[" ++ k ++ "]" else k
      match encode key v true with
      | none => none
      | some head =>
          match encode_dict pre rest nested with
          | none => none
          | some tail => some (head ++ tail)

end

/-- A parsed JSON value, as produced by `json.loads` on the response body. -/
inductive Json where
  | null
  | str (s : String)
  | num (n : Int)
  | bool (b : Bool)
  | arr (elems : List Json)
  | obj (entries : List (String × Json))

/-- Whether a `Json` value is `null` (Python `is None`). -/
def Json.isNull : Json → Bool
  | Json.null => true
  | _ => false

/-- The decoded response envelope: the values of the `result`,
`error_code` and `error_info` keys of the response JSON object. -/
structure Envelope where
  result : Json
  error_code : Json
  error_info : Json

/-- The three client attributes of `ConduitBase` (class defaults `None`).
The source attribute `prefix` is rendered `pre`. -/
structure Config where
  token : Option String
  host : Option String
  pre : Option String

/-- Errors a call can raise before or after the transport round trip:
configuration `Exception`s with their exact messages, the remote-error
`Exception(error_info)`, and Python `TypeError` from `_build` or item
assignment on a non-dict. -/
inductive CallError where
  | configError (msg : String)
  | apiError (info : Json)
  | typeError

/-- The POST body handed to the transport: manual mode carries the raw
joined string (no percent-encoding is applied by this code); standard
mode hands the final parameter dict to the external `urlencode`. -/
inductive Posting where
  | manual (body : String)
  | standard (pairs : List (String × ParamTree))

/-- The request as configured on the curl handle before `perform()`. -/
structure Request where
  url : String
  posting : Posting

/-- Python `len()` on a parameter value. -/
def treeLen : ParamTree → Nat
  | ParamTree.str s => s.length
  | ParamTree.seq elems => elems.length
  | ParamTree.map entries => entries.length

/-- Python dict item assignment `d[k] = v` on an insertion-ordered dict:
an existing key keeps its position and gets the new value, a new key is
appended at the end. -/
def dictSet (l : List (String × ParamTree)) (k : String) (v : ParamTree) :
    List (String × ParamTree) :=
  match l with
  | [] => [(k, v)]
  | (k', v') :: rest => if k' = k then (k, v) :: rest else (k', v') :: dictSet rest k v

/-- Python dict lookup `d[k]` on an insertion-ordered dict. -/
def dictLookup (l : List (String × ParamTree)) (k : String) : Option ParamTree :=
  match l with
  | [] => none
  | (k', v) :: rest => if k' = k then some v else dictLookup rest k

/-- Python `"&".join(fields)`. -/
def joinAmp : List String → String
  | [] => ""
  | [f] => f
  | f :: rest => f ++ "&" ++ joinAmp rest

/-- The `fields` list of the manual branch of `_execute`: starts with
`_build("api.token", token)`, then — only when `parameters` is present
and `len(parameters) > 0` — the encoder output for
`_encode("", parameters, False)`.  `none` models the `TypeError` the
encoder raises on a non-string list element. -/
def manual_fields (tok : String) (parameters : Option ParamTree) : Option (List String) :=
  match parameters with
  | none => some [build "api.token" tok]
  | some p =>
    if 0 < treeLen p then
      match encode "" p false with
      | none => none
      | some fs => some (build "api.token" tok :: fs)
    else some [build "api.token" tok]

/-- `_execute` up to `curl.perform()`: token and host checks, URL
construction, and body building.  On success it returns the `Request`
that reaches the transport, paired with the caller's parameter object
after any in-place mutation (standard mode assigns
`params["api.token"] = token` into the caller's dict; item assignment
on a non-dict raises `TypeError`). -/
def execute_request (cfg : Config) (endpoint : String) (manual_post : Bool)
    (parameters : Option ParamTree) : Except CallError (Request × Option ParamTree) :=
  match cfg.token with
  | none => Except.error (CallError.configError "no token given...")
  | some tok =>
    match cfg.host with
    | none => Except.error (CallError.configError "no host given...")
    | some h =>
      let url := h ++ "/api/" ++ endpoint
      if manual_post then
        match manual_fields tok parameters with
        | none => Except.error CallError.typeError
        | some fields => Except.ok (⟨url, Posting.manual (joinAmp fields)⟩, parameters)
      else
        match parameters with
        | none => Except.ok (⟨url, Posting.standard [("api.token", ParamTree.str tok)]⟩, none)
        | some (ParamTree.map l) =>
            let m := dictSet l "api.token" (ParamTree.str tok)
            Except.ok (⟨url, Posting.standard m⟩, some (ParamTree.map m))
        | some _ => Except.error CallError.typeError

/-- `_go(operator, params, manual_post)`: prefix check, then
`_execute(prefix + "." + operator, ...)`. -/
def go (cfg : Config) (operator : String) (params : Option ParamTree)
    (manual_post : Bool) : Except CallError (Request × Option ParamTree) :=
  match cfg.pre with
  | none => Except.error (CallError.configError "no prefix configured")
  | some p => execute_request cfg (p ++ "." ++ operator) manual_post params

/-- The envelope unwrapping at the end of `_execute`: return `result`
when `error_code` is `None`, else raise `Exception(error_info)`. -/
def handle_response (env : Envelope) : Except CallError Json :=
  if env.error_code.isNull then Except.ok env.result
  else Except.error (CallError.apiError env.error_info)

/-- A whole call: build the request via `_go`; only when that succeeds is
the transport exercised and the response envelope `env` consumed.  The
second component is the caller's parameter object after the call. -/
def call (cfg : Config) (operator : String) (params : Option ParamTree)
    (manual_post : Bool) (env : Envelope) : Except CallError Json × Option ParamTree :=
  match go cfg operator params manual_post with
  | Except.error e => (Except.error e, params)
  | Except.ok (_, newParams) => (handle_response env, newParams)

/-! ### Helper lemmas -/

theorem Json.isNull_iff (j : Json) : j.isNull = true ↔ j = Json.null := by
  cases j <;> simp [Json.isNull]

theorem joinAmp_cons_head (x : String) (fs : List String) :
    ∃ r, joinAmp (x :: fs) = x ++ r := by
  cases fs with
  | nil => exact ⟨"", by simp [joinAmp]⟩
  | cons y t => exact ⟨"&" ++ joinAmp (y :: t), by simp [joinAmp, String.append_assoc]⟩

theorem encode_list_strs (pre : String) (vs : List String) (i : Nat) :
    encode_list pre (vs.map ParamTree.str) i
      = some (((List.range' i vs.length).zip vs).map
          fun p => pre ++ "[" ++ toString p.1 ++ "]" ++ "=" ++ p.2) := by
  induction vs generalizing i with
  | nil => simp [encode_list]
  | cons v vs ih => simp [encode_list, ih, List.range'_succ, build, String.append_assoc]

theorem encode_dict_strs (l : List (String × String)) :
    encode_dict "" (l.map fun p => (p.1, ParamTree.str p.2)) false
      = some (l.map fun p => p.1 ++ "=" ++ p.2) := by
  induction l with
  | nil => simp [encode_dict]
  | cons kv l ih => simp [encode_dict, encode, build, ih]

theorem dictLookup_dictSet_self (l : List (String × ParamTree)) (k : String) (v : ParamTree) :
    dictLookup (dictSet l k v) k = some v := by
  induction l with
  | nil => simp [dictSet, dictLookup]
  | cons kv l ih =>
      by_cases h : kv.1 = k <;> simp [dictSet, dictLookup, h, ih]

theorem dictLookup_dictSet_ne (l : List (String × ParamTree)) (k : String) (v : ParamTree)
    (k' : String) (hk : k' ≠ k) : dictLookup (dictSet l k v) k' = dictLookup l k' := by
  induction l with
  | nil => simp [dictSet, dictLookup, Ne.symm hk]
  | cons kv l ih =>
      obtain ⟨k1, v1⟩ := kv
      by_cases h : k1 = k
      · subst h
        simp [dictSet, dictLookup, Ne.symm hk]
      · simp [dictSet, dictLookup, h, ih]

theorem encode_dict_skip_empty (pre : String) (c : Bool) (t : ParamTree)
    (ht : ∀ key, encode key t true = some [])
    (l1 l2 : List (String × ParamTree)) (k : String) :
    encode_dict pre (l1 ++ (k, t) :: l2) c = encode_dict pre (l1 ++ l2) c := by
  induction l1 with
  | nil =>
      simp only [List.nil_append, encode_dict, ht]
      cases h : encode_dict pre l2 c <;> simp [h]
  | cons kv l1 ih =>
      obtain ⟨k1, v1⟩ := kv
      simp only [List.cons_append, encode_dict, List.append_eq, ih]

/-! ### Claim theorems -/

/-- C1 (counterexample): the spec's example
`{"transactions": [{"type": "custom.text", "value": "hi"}]}` does not
encode to `transactions[0][type]=custom.text`,
`transactions[0][value]=hi`; `_encode_list` passes the element dict
straight into `_build`, which is a `TypeError` (`none`). -/
theorem c1_counterexample :
    encode "" (ParamTree.map [("transactions",
        ParamTree.seq [ParamTree.map [("type", ParamTree.str "custom.text"),
                                      ("value", ParamTree.str "hi")]])]) false
      = none ∧
    encode "" (ParamTree.map [("transactions",
        ParamTree.seq [ParamTree.map [("type", ParamTree.str "custom.text"),
                                      ("value", ParamTree.str "hi")]])]) false
      ≠ some ["transactions[0][type]=custom.text", "transactions[0][value]=hi"] := by
  decide

/-- C1 (amended): sequence elements are not recursively encoded.  A
string element at position `i` yields the pair `prefix[i]=elem`; a
sequence whose elements are mappings fails with a `TypeError`, as on the
spec's `transactions` example. -/
theorem c1_amended :
    (∀ (k : String) (vs : List String),
        encode "" (ParamTree.map [(k, ParamTree.seq (vs.map ParamTree.str))]) false
          = some (((List.range' 0 vs.length).zip vs).map
              fun p => k ++ "[" ++ toString p.1 ++ "]" ++ "=" ++ p.2)) ∧
    encode "" (ParamTree.map [("transactions",
        ParamTree.seq [ParamTree.map [("type", ParamTree.str "custom.text"),
                                      ("value", ParamTree.str "hi")]])]) false
      = none := by
  constructor
  · intro k vs
    simp [encode, encode_dict, encode_list_strs]
  · decide

/-- C5: encoding a single-level string-to-string mapping at top level
yields exactly one pair per key, named by the bare key, in the mapping's
own iteration order. -/
theorem c5_flat_mapping (l : List (String × String)) :
    encode "" (ParamTree.map (l.map fun p => (p.1, ParamTree.str p.2))) false
      = some (l.map fun p => p.1 ++ "=" ++ p.2) := by
  simpa [encode] using encode_dict_strs l

/-- C6: below the top level a mapping key is appended to the accumulated
field name as `[key]`; in particular
`{"constraints": {"subscribers": ["P"]}}` encodes to exactly
`constraints[subscribers][0]=P`. -/
theorem c6_nested_mapping_brackets :
    (∀ (pre k : String) (v : ParamTree),
        encode pre (ParamTree.map [(k, v)]) true
          = encode (pre ++ "[" ++ k ++ "]") v true) ∧
    encode "" (ParamTree.map [("constraints",
        ParamTree.map [("subscribers", ParamTree.seq [ParamTree.str "P"])])]) false
      = some ["constraints[subscribers][0]=P"] := by
  constructor
  · intro pre k v
    cases h : encode (pre ++ "[" ++ k ++ "]") v true <;> simp [encode, encode_dict, h]
  · decide

/-- C8 (counterexample): an empty mapping occurring as an element of a
sequence does not yield zero pairs — `_encode_list` hands it to `_build`
and the encoding fails with a `TypeError`, unlike the sequence without
that subtree. -/
theorem c8_counterexample :
    encode "" (ParamTree.seq [ParamTree.map []]) false = none ∧
    encode "" (ParamTree.seq [ParamTree.map []]) false ≠ encode "" (ParamTree.seq []) false := by
  decide

/-- C8 (amended): an empty mapping or empty sequence yields zero Wire
Pairs and no error when it is the whole tree or a mapping value at any
depth, and the surrounding mapping encodes as if the entry were absent;
as an element of a sequence it instead raises a `TypeError`. -/
theorem c8_amended :
    (∀ (pre : String) (c : Bool),
        encode pre (ParamTree.map []) c = some []
          ∧ encode pre (ParamTree.seq []) c = some []) ∧
    (∀ (pre : String) (c : Bool) (l1 l2 : List (String × ParamTree)) (k : String),
        encode pre (ParamTree.map (l1 ++ (k, ParamTree.map []) :: l2)) c
            = encode pre (ParamTree.map (l1 ++ l2)) c
          ∧ encode pre (ParamTree.map (l1 ++ (k, ParamTree.seq []) :: l2)) c
            = encode pre (ParamTree.map (l1 ++ l2)) c) ∧
    (∀ (pre : String) (l2 : List ParamTree) (i : Nat),
        encode_list pre (ParamTree.map [] :: l2) i = none
          ∧ encode_list pre (ParamTree.seq [] :: l2) i = none) := by
  refine ⟨fun pre c => ⟨rfl, rfl⟩, fun pre c l1 l2 k => ⟨?_, ?_⟩, fun pre l2 i => ⟨rfl, rfl⟩⟩
  · simpa [encode] using
      encode_dict_skip_empty pre c (ParamTree.map []) (fun _ => rfl) l1 l2 k
  · simpa [encode] using
      encode_dict_skip_empty pre c (ParamTree.seq []) (fun _ => rfl) l1 l2 k

theorem manual_fields_spec (tok : String) (params : Option ParamTree) (fields : List String)
    (h : manual_fields tok params = some fields) :
    ∃ fs, fields = build "api.token" tok :: fs ∧
      (params = none → fs = []) ∧
      (∀ p, params = some p → treeLen p = 0 → fs = []) ∧
      (∀ p, params = some p → 0 < treeLen p → encode "" p false = some fs) := by
  cases params with
  | none =>
      simp only [manual_fields, Option.some.injEq] at h
      exact ⟨[], h.symm, fun _ => rfl, by simp, by simp⟩
  | some p =>
      by_cases hlen : 0 < treeLen p
      · rw [manual_fields, if_pos hlen] at h
        cases he : encode "" p false with
        | none => rw [he] at h; exact absurd h (by simp)
        | some fs =>
            rw [he] at h
            simp only [Option.some.injEq] at h
            refine ⟨fs, h.symm, by simp, ?_, ?_⟩
            · intro q hq hq0
              cases hq
              omega
            · intro q hq _
              cases hq
              exact he
      · rw [manual_fields, if_neg hlen] at h
        simp only [Option.some.injEq] at h
        refine ⟨[], h.symm, fun _ => rfl, by simp, ?_⟩
        intro q hq hq0
        cases hq
        exact absurd hq0 hlen

theorem execute_request_url (cfg : Config) (e : String) (mp : Bool)
    (params : Option ParamTree) (req : Request) (st : Option ParamTree)
    (hex : execute_request cfg e mp params = Except.ok (req, st)) :
    ∃ h, cfg.host = some h ∧ req.url = h ++ "/api/" ++ e := by
  unfold execute_request at hex
  split at hex
  · exact absurd hex (by simp)
  · split at hex
    · exact absurd hex (by simp)
    · rename_i tok hok h hh
      refine ⟨h, hh, ?_⟩
      split at hex
      · split at hex
        · exact absurd hex (by simp)
        · simp only [Except.ok.injEq, Prod.mk.injEq] at hex
          rw [← hex.1]
      · split at hex
        · simp only [Except.ok.injEq, Prod.mk.injEq] at hex
          rw [← hex.1]
        · simp only [Except.ok.injEq, Prod.mk.injEq] at hex
          rw [← hex.1]
        · exact absurd hex (by simp)

/-- C2: whenever the manual-mode request stage succeeds, the POST body is
the `&`-join of fields whose first field is `api.token=<token>`, followed
by exactly the raw encoder output for the parameter tree (nothing when
parameters are absent or empty); no percent-encoding is applied anywhere
in this construction. -/
theorem c2_manual_body (cfg : Config) (tok endpoint : String) (params : Option ParamTree)
    (req : Request) (st : Option ParamTree)
    (htok : cfg.token = some tok)
    (hex : execute_request cfg endpoint true params = Except.ok (req, st)) :
    ∃ fs : List String,
      req.posting = Posting.manual (joinAmp (build "api.token" tok :: fs)) ∧
      (∃ r, joinAmp (build "api.token" tok :: fs) = build "api.token" tok ++ r) ∧
      (params = none → fs = []) ∧
      (∀ p, params = some p → treeLen p = 0 → fs = []) ∧
      (∀ p, params = some p → 0 < treeLen p → encode "" p false = some fs) := by
  unfold execute_request at hex
  rw [htok] at hex
  split at hex
  · exact absurd hex (by simp)
  · rename_i t ht
    injection ht with ht'
    subst ht'
    split at hex
    · exact absurd hex (by simp)
    · rename_i hst hhst
      cases hf : manual_fields tok params with
      | none => rw [hf] at hex; exact absurd hex (by simp)
      | some fields =>
          rw [hf] at hex
          have hex' : Request.mk (hst ++ "/api/" ++ endpoint)
              (Posting.manual (joinAmp fields)) = req ∧ params = st := by
            simpa using hex
          obtain ⟨hex1, hex2⟩ := hex'
          obtain ⟨fs, hfs, h1, h2, h3⟩ := manual_fields_spec tok params fields hf
          refine ⟨fs, ?_, joinAmp_cons_head _ _, h1, h2, h3⟩
          rw [← hex1, hfs]

/-- C2 witness: a concrete manual-mode call. -/
theorem c2_manual_body_witness :
    ∃ fs : List String,
      (Request.mk "http://ph/api/maniphest.update" (Posting.manual "api.token=tok&id=12")).posting
        = Posting.manual (joinAmp (build "api.token" "tok" :: fs)) ∧
      (∃ r, joinAmp (build "api.token" "tok" :: fs) = build "api.token" "tok" ++ r) ∧
      (some (ParamTree.map [("id", ParamTree.str "12")]) = none → fs = []) ∧
      (∀ p, some (ParamTree.map [("id", ParamTree.str "12")]) = some p → treeLen p = 0 → fs = []) ∧
      (∀ p, some (ParamTree.map [("id", ParamTree.str "12")]) = some p → 0 < treeLen p →
        encode "" p false = some fs) :=
  c2_manual_body ⟨some "tok", some "http://ph", some "maniphest"⟩ "tok" "maniphest.update"
    (some (ParamTree.map [("id", ParamTree.str "12")]))
    ⟨"http://ph/api/maniphest.update", Posting.manual "api.token=tok&id=12"⟩
    (some (ParamTree.map [("id", ParamTree.str "12")])) rfl rfl

/-- C3: a missing prefix, a missing token, or a missing host each abort the
call with the corresponding configuration Exception, before any transport
attempt: the result is this error pair for every possible response
envelope (so no response is consumed), and the caller's parameters are
returned untouched. -/
theorem c3_config_errors (cfg : Config) (op : String) (params : Option ParamTree)
    (mp : Bool) (env : Envelope) :
    (cfg.pre = none →
      call cfg op params mp env
        = (Except.error (CallError.configError "no prefix configured"), params)) ∧
    (∀ p, cfg.pre = some p → cfg.token = none →
      call cfg op params mp env
        = (Except.error (CallError.configError "no token given..."), params)) ∧
    (∀ p t, cfg.pre = some p → cfg.token = some t → cfg.host = none →
      call cfg op params mp env
        = (Except.error (CallError.configError "no host given..."), params)) := by
  refine ⟨fun h => ?_, fun p hp ht => ?_, fun p t hp ht hh => ?_⟩
  · simp [call, go, h]
  · simp [call, go, execute_request, hp, ht]
  · simp [call, go, execute_request, hp, ht, hh]

/-- C3 witness: the three scenarios at concrete configurations. -/
theorem c3_config_errors_witness :
    call ⟨some "t", some "hst", none⟩ "op" none true ⟨Json.null, Json.null, Json.null⟩
      = (Except.error (CallError.configError "no prefix configured"), none) ∧
    call ⟨none, some "hst", some "user"⟩ "op" none true ⟨Json.null, Json.null, Json.null⟩
      = (Except.error (CallError.configError "no token given..."), none) ∧
    call ⟨some "t", none, some "user"⟩ "op" none true ⟨Json.null, Json.null, Json.null⟩
      = (Except.error (CallError.configError "no host given..."), none) :=
  ⟨(c3_config_errors ⟨some "t", some "hst", none⟩ "op" none true _).1 rfl,
   (c3_config_errors ⟨none, some "hst", some "user"⟩ "op" none true _).2.1 "user" rfl rfl,
   (c3_config_errors ⟨some "t", none, some "user"⟩ "op" none true _).2.2 "user" "t" rfl rfl rfl⟩

/-- C4: once the request stage has succeeded, a `null` `error_code` makes
the call return `result` unchanged, and a non-null `error_code` raises
`Exception(error_info)` with `error_info` passed through verbatim. -/
theorem c4_envelope (cfg : Config) (op : String) (params : Option ParamTree) (mp : Bool)
    (req : Request) (st : Option ParamTree) (env : Envelope)
    (hgo : go cfg op params mp = Except.ok (req, st)) :
    (env.error_code = Json.null → (call cfg op params mp env).1 = Except.ok env.result) ∧
    (env.error_code ≠ Json.null →
      (call cfg op params mp env).1 = Except.error (CallError.apiError env.error_info)) := by
  constructor <;> intro h <;>
    simp [call, hgo, handle_response, Json.isNull_iff, h]

/-- C4 witness: the spec's bad-token envelope raises with message
"Invalid token.", and a null-error envelope returns the result. -/
theorem c4_envelope_witness :
    (call ⟨some "tok", some "http://ph", some "user"⟩ "whoami" none true
        ⟨Json.null, Json.str "ERR-BAD-TOKEN", Json.str "Invalid token."⟩).1
      = Except.error (CallError.apiError (Json.str "Invalid token.")) ∧
    (call ⟨some "tok", some "http://ph", some "user"⟩ "whoami" none true
        ⟨Json.obj [("phid", Json.str "PHID-USER-1")], Json.null, Json.null⟩).1
      = Except.ok (Json.obj [("phid", Json.str "PHID-USER-1")]) := by
  constructor
  · exact (c4_envelope ⟨some "tok", some "http://ph", some "user"⟩ "whoami" none true
      ⟨"http://ph/api/user.whoami", Posting.manual "api.token=tok"⟩ none _ rfl).2 (by simp)
  · exact (c4_envelope ⟨some "tok", some "http://ph", some "user"⟩ "whoami" none true
      ⟨"http://ph/api/user.whoami", Posting.manual "api.token=tok"⟩ none _ rfl).1 rfl

/-- C7: every request that reaches the transport goes to
`host ++ "/api/" ++ namespace ++ "." ++ operation`. -/
theorem c7_url (cfg : Config) (op : String) (params : Option ParamTree) (mp : Bool)
    (req : Request) (st : Option ParamTree)
    (hgo : go cfg op params mp = Except.ok (req, st)) :
    ∃ h p, cfg.host = some h ∧ cfg.pre = some p ∧
      req.url = h ++ "/api/" ++ p ++ "." ++ op := by
  unfold go at hgo
  split at hgo
  · exact absurd hgo (by simp)
  · rename_i p hp
    obtain ⟨h, hh, hurl⟩ := execute_request_url cfg _ mp params req st hgo
    exact ⟨h, p, hh, hp, by rw [hurl]; simp [String.append_assoc]⟩

/-- C7 witness: the URL of a concrete successful request build. -/
theorem c7_url_witness :
    ∃ h p, (Config.mk (some "t") (some "http://ph") (some "user")).host = some h ∧
      (Config.mk (some "t") (some "http://ph") (some "user")).pre = some p ∧
      (Request.mk "http://ph/api/user.whoami" (Posting.manual "api.token=t")).url
        = h ++ "/api/" ++ p ++ "." ++ "whoami" :=
  c7_url ⟨some "t", some "http://ph", some "user"⟩ "whoami" none true
    ⟨"http://ph/api/user.whoami", Posting.manual "api.token=t"⟩ none rfl

/-- C9: a standard-mode call with a caller-supplied mapping mutates that
mapping in place: whatever the response envelope is (successful result or
raised ApiError), afterwards the mapping holds "api.token" bound to the
dispatcher's token — overwriting any caller value at that key — and
lookups at every other key are unchanged. -/
theorem c9_standard_mutation (cfg : Config) (tok p op : String)
    (l : List (String × ParamTree)) (env : Envelope) (h : String)
    (hpre : cfg.pre = some p) (htok : cfg.token = some tok) (hh : cfg.host = some h) :
    (call cfg op (some (ParamTree.map l)) false env).2
        = some (ParamTree.map (dictSet l "api.token" (ParamTree.str tok))) ∧
    dictLookup (dictSet l "api.token" (ParamTree.str tok)) "api.token"
        = some (ParamTree.str tok) ∧
    ∀ k, k ≠ "api.token" →
      dictLookup (dictSet l "api.token" (ParamTree.str tok)) k = dictLookup l k := by
  refine ⟨?_, dictLookup_dictSet_self l _ _, fun k hk => dictLookup_dictSet_ne l _ _ k hk⟩
  simp [call, go, execute_request, hpre, htok, hh]

/-- C9 witness: a concrete standard-mode call whose response is an API
error still leaves the caller's dict with the token overwritten and the
other entry unchanged. -/
theorem c9_standard_mutation_witness :
    (call ⟨some "tok", some "http://ph", some "phriction"⟩ "edit"
        (some (ParamTree.map [("slug", ParamTree.str "home"),
                              ("api.token", ParamTree.str "old")])) false
        ⟨Json.null, Json.str "ERR", Json.str "boom"⟩).2
      = some (ParamTree.map (dictSet [("slug", ParamTree.str "home"),
          ("api.token", ParamTree.str "old")] "api.token" (ParamTree.str "tok"))) ∧
    dictLookup (dictSet [("slug", ParamTree.str "home"), ("api.token", ParamTree.str "old")]
        "api.token" (ParamTree.str "tok")) "api.token" = some (ParamTree.str "tok") ∧
    dictLookup (dictSet [("slug", ParamTree.str "home"), ("api.token", ParamTree.str "old")]
        "api.token" (ParamTree.str "tok")) "slug"
      = dictLookup [("slug", ParamTree.str "home"), ("api.token", ParamTree.str "old")] "slug" := by
  obtain ⟨h1, h2, h3⟩ := c9_standard_mutation ⟨some "tok", some "http://ph", some "phriction"⟩
    "tok" "phriction" "edit" [("slug", ParamTree.str "home"), ("api.token", ParamTree.str "old")]
    ⟨Json.null, Json.str "ERR", Json.str "boom"⟩ "http://ph" rfl rfl rfl
  exact ⟨h1, h2, h3 "slug" (by decide)⟩

/-- C10: a non-empty bare string as the whole top-level parameter tree is
accepted: it encodes to the single pair with empty name, so the manual
body is `api.token=<token>&=<s>`. -/
theorem c10_bare_string (cfg : Config) (tok h endpoint s : String)
    (htok : cfg.token = some tok) (hh : cfg.host = some h) (hs : s ≠ "") :
    encode "" (ParamTree.str s) false = some ["" ++ "=" ++ s] ∧
    execute_request cfg endpoint true (some (ParamTree.str s))
      = Except.ok (⟨h ++ "/api/" ++ endpoint,
          Posting.manual (build "api.token" tok ++ "&" ++ ("" ++ "=" ++ s))⟩,
        some (ParamTree.str s)) := by
  have hlen : 0 < treeLen (ParamTree.str s) := by
    cases s with
    | mk data =>
      cases data with
      | nil => exact absurd rfl hs
      | cons c cs => simp [treeLen, String.length]
  refine ⟨rfl, ?_⟩
  simp [execute_request, htok, hh, manual_fields, hlen, encode, build, joinAmp]

/-- C10 witness: a concrete bare-string manual call. -/
theorem c10_bare_string_witness :
    encode "" (ParamTree.str "hello") false = some ["" ++ "=" ++ "hello"] ∧
    execute_request ⟨some "tok", some "http://ph", some "x"⟩ "x.y" true
        (some (ParamTree.str "hello"))
      = Except.ok (⟨"http://ph" ++ "/api/" ++ "x.y",
          Posting.manual (build "api.token" "tok" ++ "&" ++ ("" ++ "=" ++ "hello"))⟩,
        some (ParamTree.str "hello")) :=
  c10_bare_string ⟨some "tok", some "http://ph", some "x"⟩ "tok" "http://ph" "x.y" "hello"
    rfl rfl (by decide)

end Conduit
